import Mathlib

/-!
# Verification of the sirh-time-sync synchronization engine

Shallow embedding of the core of the `sirh-time-sync` repository:
the SQLite-backed record store (`src/data/sqlite_repositories.py`),
the attendance service (`src/service/attendance_service.py`),
the upload orchestrator / error reconciler (`src/service/sync_service.py`)
and the scheduler registration logic (`src/service/scheduler_service.py`).

The store is modelled as an explicit state value (list of rows plus upload
logs plus the autoincrement counter); remote collaborators (device, API)
are modelled as explicit inputs; wall-clock time in the poll loop is
modelled by the 2-second sleeps only, so the 30-second deadline turns into
at most 15 poll iterations, exactly as in the source
(`while datetime.now() < end_time` with `time.sleep(2)` on every
non-terminal branch).
-/

namespace SirhTimeSync

/-- `ProcessedStatus.PROCESSED` (Python str enum value). -/
def PROCESSED : String := "PROCESSED"

/-- `ProcessedStatus.ERROR` (Python str enum value). -/
def ERROR : String := "ERROR"

/-- `ProcessedStatus.UNPROCESSED` (Python str enum value). -/
def UNPROCESSED : String := "UNPROCESSED"

/-- One `{field, code, message}` validation-error entry carried by a record. -/
structure RecordError where
  field : String
  code : String
  message : String
deriving DecidableEq

/-- `AttendanceRecord` as it arrives at the repository (not yet persisted):
`id` is assigned by the store, `uid` may be absent (Python `None`) and is
then allocated at insert time. -/
structure AttendanceRecord where
  uid : Option Nat
  user_id : Nat
  username : String
  timestamp : String
  status : Nat
  punch_type : Nat
  processed : String
  errors : List RecordError
deriving DecidableEq

/-- A persisted row of the `attendance_records` table.  The schema declares
`uid INTEGER NOT NULL UNIQUE` and `timestamp TEXT NOT NULL UNIQUE`, so both
are total here.  `errors` is stored as JSON or NULL; NULL reads back as the
empty list, so the two are identified. -/
structure Row where
  id : Nat
  uid : Nat
  user_id : Nat
  username : String
  timestamp : String
  status : Nat
  punch_type : Nat
  processed : String
  errors : List RecordError
deriving DecidableEq

/-- The remote API's reply to `upload_attendance`. -/
structure UploadResp where
  success : Bool
  message : String
  jobExecutionId : Option String
deriving DecidableEq

/-- One reply of `get_pointing_import` (a poll of the remote job). -/
structure PollResp where
  status : Option String
  jobExecutionId : Option String
deriving DecidableEq

/-- One `{recordId, errors}` entry of `get_pointing_import_lines`.
`recordId` is `Option` because the Python code reads it with `.get`. -/
structure FailedLine where
  recordId : Option Nat
  errors : List RecordError
deriving DecidableEq

/-- Snapshot stored in an upload log's `response_data` column. -/
inductive ResponseData where
  | uploadResp (r : UploadResp)
  | jobResult (jobExecutionId : Option String) (processed : Nat)
  | pollResp (p : PollResp)
deriving DecidableEq

/-- A row of the `api_upload_logs` table. -/
structure APIUploadLog where
  batch_id : String
  file_path : String
  records_count : Nat
  status : String
  response_data : ResponseData
deriving DecidableEq

/-- The persistent store: attendance rows, upload logs and the rowid
autoincrement counter. -/
structure DB where
  rows : List Row
  logs : List APIUploadLog
  nextId : Nat
deriving DecidableEq

/-! ## SQLiteAttendanceRepository -/

/-- Python truthiness of an optional integer: `None` and `0` are falsy
(`if not record.uid`). -/
def uidTruthy : Option Nat → Bool
  | some n => n != 0
  | none => false

/-- `SELECT MAX(uid) FROM attendance_records` (NULL on an empty table). -/
def maxUid : List Row → Option Nat
  | [] => none
  | r :: rs =>
    match maxUid rs with
    | some m => some (max r.uid m)
    | none => some r.uid

/-- The batch-starting uid of `save_records`:
`next_uid = max_uid + 1 if max_uid and max_uid > 2000000 else 2000000`.
Note the strict `>` (the sibling `save_record` uses `>=`). -/
def nextUidInit (rows : List Row) : Nat :=
  match maxUid rows with
  | some m => if m > 2000000 then m + 1 else 2000000
  | none => 2000000

/-- `INSERT OR IGNORE` conflict test: the row is dropped when any stored
row already has the same (UNIQUE) `timestamp` or the same (UNIQUE) `uid`. -/
def insertConflict (rows : List Row) (u : Nat) (ts : String) : Bool :=
  rows.any (fun x => x.timestamp == ts || x.uid == u)

/-- The loop body of `save_records`: walks the batch, allocating `next_uid`
to every record whose `uid` is falsy, and issuing `INSERT OR IGNORE` for
each.  Returns the final rows, the final rowid counter, the final uid
counter, and the list of uids that were freshly assigned (in order). -/
def saveRecordsGo : List Row → Nat → Nat → List AttendanceRecord →
    List Row × Nat × Nat × List Nat
  | rows, nextId, nextUid, [] => (rows, nextId, nextUid, [])
  | rows, nextId, nextUid, r :: rs =>
    let assigned := !(uidTruthy r.uid)
    let u := if uidTruthy r.uid then r.uid.getD 0 else nextUid
    let nextUid1 := if assigned then nextUid + 1 else nextUid
    let conflict := insertConflict rows u r.timestamp
    let rows1 := if conflict then rows else
      rows ++ [⟨nextId, u, r.user_id, r.username, r.timestamp, r.status,
                r.punch_type, r.processed, r.errors⟩]
    let nextId1 := if conflict then nextId else nextId + 1
    let rest := saveRecordsGo rows1 nextId1 nextUid1 rs
    (rest.1, rest.2.1, rest.2.2.1, (if assigned then [u] else []) ++ rest.2.2.2)

/-- `SQLiteAttendanceRepository.save_records`: returns the new store and the
list of uids assigned to records that arrived without one. -/
def saveRecords (db : DB) (recs : List AttendanceRecord) : DB × List Nat :=
  match recs with
  | [] => (db, [])
  | _ =>
    let res := saveRecordsGo db.rows db.nextId (nextUidInit db.rows) recs
    (⟨res.1, db.logs, res.2.1⟩, res.2.2.2)

/-- `ts.replace("T", " ")` — the timestamp normalization applied by
`mark_records_by_timestamps` before matching. -/
def fmtTs (ts : String) : String := ts.replace "T" " "

/-- Per-row effect of the `UPDATE ... SET processed = ?, errors = NULL
WHERE timestamp IN (...)` statement. -/
def markRow (fs : List String) (status : String) (r : Row) : Row :=
  if fs.contains r.timestamp then { r with processed := status, errors := [] }
  else r

/-- `SQLiteAttendanceRepository.mark_records_by_timestamps`. -/
def markRecordsByTimestamps (rows : List Row) (timestamps : List String)
    (status : String) : List Row :=
  match timestamps with
  | [] => rows
  | _ => rows.map (markRow (timestamps.map fmtTs) status)

/-- The same operation at store level (only the records table changes). -/
def markRecordsByTimestampsDb (db : DB) (timestamps : List String)
    (status : String) : DB :=
  ⟨markRecordsByTimestamps db.rows timestamps status, db.logs, db.nextId⟩

/-- `SQLiteAttendanceRepository.mark_record_error`: set
`processed = ERROR, errors = <list>` on the row with the given id. -/
def markRecordError (rows : List Row) (recordId : Nat)
    (errs : List RecordError) : List Row :=
  rows.map (fun r =>
    if r.id = recordId then { r with processed := ERROR, errors := errs }
    else r)

/-- `SQLiteAttendanceRepository.update_record`: overwrite the mutable
columns of the row with the matching id. -/
def updateRecord (rows : List Row) (rec : Row) : List Row :=
  rows.map (fun x =>
    if x.id = rec.id then
      { x with username := rec.username, timestamp := rec.timestamp,
               status := rec.status, punch_type := rec.punch_type,
               processed := rec.processed, errors := rec.errors }
    else x)

/-- Insert a row into a timestamp-sorted list (`ORDER BY timestamp ASC`;
timestamps are UNIQUE so ties cannot occur). -/
def insertRowByTs (r : Row) : List Row → List Row
  | [] => [r]
  | x :: xs =>
    if r.timestamp < x.timestamp then r :: x :: xs
    else x :: insertRowByTs r xs

/-- Sort rows by timestamp, as `ORDER BY timestamp ASC` does. -/
def sortRowsByTs : List Row → List Row
  | [] => []
  | r :: rs => insertRowByTs r (sortRowsByTs rs)

/-- `SQLiteAttendanceRepository.get_records` with the default
`order_by='timestamp'`. -/
def getRecords (db : DB) (processed_status : Option String) : List Row :=
  let selected := match processed_status with
    | some s => db.rows.filter (fun r => r.processed == s)
    | none => db.rows
  sortRowsByTs selected

/-- `SQLiteLogRepository.log_api_upload`: append one immutable audit row. -/
def logApiUpload (db : DB) (log : APIUploadLog) : DB :=
  ⟨db.rows, db.logs ++ [log], db.nextId⟩

/-! ## AttendanceService -/

/-- `AttendanceService.collect_attendance`: fetch device records (already
normalized and stamped `UNPROCESSED` by `DeviceService`), bulk-save them,
and return the number of records *fetched* (`len(records)`), regardless of
how many inserts were silently ignored as duplicates. -/
def collectAttendance (db : DB) (deviceRecords : List AttendanceRecord) :
    DB × Nat :=
  match deviceRecords with
  | [] => (db, 0)
  | _ => ((saveRecords db deviceRecords).1, deviceRecords.length)

/-- `AttendanceService.mark_record_processed`: look the record up by id,
set `processed = PROCESSED`, `errors = []`, and persist via
`update_record`; `false` when the id is unknown. -/
def markRecordProcessed (rows : List Row) (recordId : Nat) :
    List Row × Bool :=
  match rows.find? (fun r => r.id == recordId) with
  | none => (rows, false)
  | some r =>
    (updateRecord rows { r with processed := PROCESSED, errors := [] }, true)

/-! ## SyncService (Upload Orchestrator and Error Reconciler) -/

/-- The remote API collaborator, as seen by one upload attempt: the submit
response, the stream of `get_pointing_import` poll results (indexed by call
number; `exn` models a raised exception), the
`get_pointings_with_job_id` table and the `get_pointing_import_lines`
response. -/
inductive PollResult where
  | ok (p : PollResp)
  | exn (msg : String)
deriving DecidableEq

structure Api where
  uploadResp : UploadResp
  poll : Nat → PollResult
  pointings : Option String → List String
  importLines : List FailedLine

/-- The `export_info` dict produced by `create_excel_report`. -/
structure ExportInfo where
  batch_id : String
  file_path : String
  records_count : Nat
deriving DecidableEq

/-- Environment of one export: the generated batch id and file name
(`uuid4()[:8]` and the timestamped path), opaque here. -/
structure ExportEnv where
  batch_id : String
  file_path : String

/-- Whether a failed-lines entry triggers `mark_record_error`:
`if record_id and errors:` — the record id must be present and nonzero
(Python truthiness) and the error list non-empty. -/
def lineQualifies (l : FailedLine) : Bool :=
  (match l.recordId with
   | some n => n != 0
   | none => false) && !l.errors.isEmpty

/-- `SyncService._process_error_records`: walk the failed lines and mark
every qualifying entry's record as `ERROR` with that entry's list. -/
def processErrorRecords (rows : List Row) (lines : List FailedLine) :
    List Row :=
  lines.foldl
    (fun rs l =>
      if lineQualifies l then markRecordError rs (l.recordId.getD 0) l.errors
      else rs)
    rows

/-- `pointing_import.get('jobExecutionId', job_execution_id)`: the job id
reported by the poll, falling back to the submit's id. -/
def jobIdOf (p : PollResp) (jid : Option String) : Option String :=
  match p.jobExecutionId with
  | some j => some j
  | none => jid

/-- The timestamps the remote reports accepted for this job. -/
def acceptedOf (api : Api) (p : PollResp) (jid : Option String) :
    List String :=
  api.pointings (jobIdOf p jid)

/-- The result of `upload_attendance_to_api` (a Python dict). -/
structure UploadResult where
  success : Bool
  message : String
  processed : Nat
  jobExecutionId : Option String
deriving DecidableEq

/-- `f'Successfully processed {processed_count} records'`. -/
def successMessage (n : Nat) : String :=
  "Successfully processed " ++ toString n ++ " records"

/-- The body of `SyncService._process_upload_job`.  `n` counts poll calls,
`t` is elapsed wall time in seconds (advanced only by the `time.sleep(2)`
calls), and `fuel` is the number of remaining loop iterations: the Python
guard `datetime.now() < end_time` with `end_time = now + 30s` admits
iteration `k` exactly when `2*k < 30`, i.e. 15 iterations.  Returns the
new store, the processed count, and the elapsed time at exit.  A raised
exception (`PollResult.exn`) is caught by the surrounding `try` and turned
into a `0` return. -/
def pollLoop (api : Api) (jid : Option String) (records : List Row)
    (info : ExportInfo) (db : DB) :
    Nat → Nat → Nat → DB × Nat × Nat
  | _, t, 0 => (db, 0, t)
  | n, t, fuel + 1 =>
    match api.poll n with
    | PollResult.exn _ => (db, 0, t)
    | PollResult.ok p =>
      if p.status = some "COMPLETED" then
        let jobId := jobIdOf p jid
        let accepted := api.pointings jobId
        let rows1 := if accepted.isEmpty then db.rows
          else markRecordsByTimestamps db.rows accepted PROCESSED
        let cnt := accepted.length
        let rows2 := if accepted.length ≠ records.length then
            processErrorRecords rows1 api.importLines
          else rows1
        (⟨rows2,
          db.logs ++ [⟨info.batch_id, info.file_path, info.records_count,
            "SUCCESS", ResponseData.jobResult jobId cnt⟩],
          db.nextId⟩, cnt, t)
      else if p.status = some "STARTED" ∨ p.status = some "STARTING" then
        pollLoop api jid records info db (n + 1) (t + 2) fuel
      else if p.status = some "FAILED" ∨ p.status = some "STOPPED" then
        (⟨processErrorRecords db.rows api.importLines,
          db.logs ++ [⟨info.batch_id, info.file_path, info.records_count,
            "FAILED", ResponseData.pollResp p⟩],
          db.nextId⟩, 0, t)
      else
        pollLoop api jid records info db (n + 1) (t + 2) fuel

/-- `SyncService._process_upload_job`: run the poll loop from a fresh
deadline. -/
def processUploadJob (api : Api) (jid : Option String) (records : List Row)
    (info : ExportInfo) (db : DB) : DB × Nat :=
  let r := pollLoop api jid records info db 0 0 15
  (r.1, r.2.1)

/-- `SyncService.upload_attendance_to_api`. -/
def uploadAttendanceToApi (api : Api) (env : ExportEnv) (db : DB) :
    DB × UploadResult :=
  let records := getRecords db (some UNPROCESSED)
  match records with
  | [] => (db, ⟨true, "No records to upload", 0, none⟩)
  | _ =>
    let info : ExportInfo := ⟨env.batch_id, env.file_path, records.length⟩
    let resp := api.uploadResp
    if resp.success then
      let jid := resp.jobExecutionId
      let r := processUploadJob api jid records info db
      (r.1, ⟨true, successMessage r.2, r.2, jid⟩)
    else
      (logApiUpload db ⟨info.batch_id, info.file_path, info.records_count,
        "FAILED", ResponseData.uploadResp resp⟩,
       ⟨false, resp.message, 0, none⟩)

/-! ## SchedulerService -/

/-- The `Config` row (fields irrelevant to the claims elided). -/
structure Config where
  device_ip : String
  device_port : Nat
  collection_interval : Nat
  upload_interval : Nat
  import_interval : Nat
deriving DecidableEq

/-- An in-memory `ScheduledJob` at registration time (`last_run`,
`next_run` and the schedule handle start out `None`; the task reference is
opaque). -/
structure ScheduledJob where
  name : String
  interval : Nat
  interval_unit : String
  task : Nat
  enabled : Bool
deriving DecidableEq

/-- Python dict assignment `self.jobs[name] = job`: replace in place if the
key exists, else append. -/
def upsertJob : List (String × ScheduledJob) → String → ScheduledJob →
    List (String × ScheduledJob)
  | [], n, j => [(n, j)]
  | (k, v) :: rest, n, j =>
    if k = n then (n, j) :: rest else (k, v) :: upsertJob rest n j

/-- Dict lookup in the registered-jobs map. -/
def jobLookup (jobs : List (String × ScheduledJob)) (name : String) :
    Option ScheduledJob :=
  (jobs.find? (fun p => p.1 == name)).map (fun p => p.2)

/-- `SchedulerService.register_job`.  When `interval` is omitted the value
is resolved from the `Config` row via the fixed name→field mapping; an
absent config or an unknown name returns without touching the map. -/
def registerJob (cfg : Option Config) (jobs : List (String × ScheduledJob))
    (name : String) (task : Nat) (interval : Option Nat)
    (interval_unit : String) : List (String × ScheduledJob) :=
  match interval with
  | some i => upsertJob jobs name ⟨name, i, interval_unit, task, true⟩
  | none =>
    match cfg with
    | none => jobs
    | some c =>
      if name = "attendance_collection" then
        upsertJob jobs name ⟨name, c.collection_interval, "minutes", task, true⟩
      else if name = "attendance_upload" then
        upsertJob jobs name ⟨name, c.upload_interval, "minutes", task, true⟩
      else if name = "user_import" then
        upsertJob jobs name ⟨name, c.import_interval, "minutes", task, true⟩
      else jobs

/-! ## Helper definitions used only to state properties -/

/-- The record-level invariant of §3: a `PROCESSED` row carries no errors. -/
def ProcessedErrorsInv (rows : List Row) : Prop :=
  ∀ r ∈ rows, r.processed = PROCESSED → r.errors = []

/-- Effect of one failed-lines entry on one row (row-level view of
`processErrorRecords`). -/
def applyLine (l : FailedLine) (r : Row) : Row :=
  if lineQualifies l ∧ l.recordId = some r.id then
    { r with processed := ERROR, errors := l.errors }
  else r

/-- Cumulative effect of a failed-lines response on one row. -/
def applyLines (lines : List FailedLine) (r : Row) : Row :=
  lines.foldl (fun x l => applyLine l x) r

/-- The last qualifying failed-lines entry naming a given record id. -/
def lastQual (lines : List FailedLine) (rid : Nat) : Option FailedLine :=
  (lines.filter (fun l => lineQualifies l && (l.recordId == some rid))).getLast?

/-- The error list the reconciler leaves on a given record id, if any. -/
def lastErrorsFor (lines : List FailedLine) (rid : Nat) :
    Option (List RecordError) :=
  (lastQual lines rid).map (fun l => l.errors)

/-- A poll result that keeps the loop running: a normal reply whose status
is none of the three terminal values. -/
def nonTerminalResp (pr : PollResult) : Prop :=
  ∃ p, pr = PollResult.ok p ∧ p.status ≠ some "COMPLETED" ∧
    p.status ≠ some "FAILED" ∧ p.status ≠ some "STOPPED"

/-! ## Concrete instances used by witnesses and counterexamples -/

def ce6Row : Row :=
  ⟨1, 2000001, 1, "alice", "2024-01-01 08:00:00", 0, 0, UNPROCESSED, []⟩

def ce6E1 : RecordError := ⟨"time", "E1", "invalid shift"⟩

def ce6E2 : RecordError := ⟨"time", "E2", "duplicate line"⟩

def ce6Lines : List FailedLine := [⟨some 1, [ce6E1]⟩, ⟨some 1, [ce6E2]⟩]

def ce6WRow : Row :=
  ⟨7, 2000002, 2, "bob", "2024-02-01 09:00:00", 0, 1, UNPROCESSED, []⟩

def ce6WLines : List FailedLine := [⟨some 7, [ce6E1]⟩, ⟨none, [ce6E2]⟩]

def exApiStarted : Api :=
  ⟨⟨true, "ok", some "job-1"⟩, fun _ => PollResult.ok ⟨some "STARTED", none⟩,
    fun _ => [], []⟩

def exInfo0 : ExportInfo := ⟨"b0", "exports/f0.xlsx", 0⟩

def exDb0 : DB := ⟨[], [], 1⟩

def exC1P : PollResp := ⟨some "COMPLETED", some "job-9"⟩

def exC1Api : Api :=
  ⟨⟨true, "ok", some "j0"⟩, fun _ => PollResult.ok exC1P,
    fun o => if o = some "job-9" then ["2024-03-01T08:00:00"] else [], []⟩

def exC1Row : Row :=
  ⟨3, 2000003, 5, "dora", "2024-03-01 08:00:00", 0, 0, UNPROCESSED, []⟩

def exC1Db : DB := ⟨[exC1Row], [], 4⟩

def exC1Info : ExportInfo := ⟨"b9", "exports/b9.xlsx", 1⟩

def ce4Api : Api :=
  ⟨⟨true, "ok", some "job-2"⟩, fun _ => PollResult.exn "boom",
    fun _ => [], []⟩

def ce4Row : Row :=
  ⟨1, 2000001, 1, "carol", "2024-01-03 08:00:00", 0, 0, UNPROCESSED, []⟩

def ce4Db : DB := ⟨[ce4Row], [], 2⟩

def exEnv : ExportEnv := ⟨"batch-1", "exports/a.xlsx"⟩

def ce5Api : Api :=
  ⟨⟨false, "authentication failed", none⟩,
    fun _ => PollResult.ok ⟨none, none⟩, fun _ => [], []⟩

def ce5Db : DB := ⟨[ce4Row], [], 2⟩

def exCfg : Config := ⟨"192.168.1.10", 4370, 60, 1, 12⟩

def ce10Row : Row :=
  ⟨1, 2000001, 1, "eve", "2024-04-01 08:00:00", 0, 0, UNPROCESSED, []⟩

def ce10Db : DB := ⟨[ce10Row], [], 2⟩

def ce10Rec : AttendanceRecord :=
  ⟨some 2000099, 1, "eve", "2024-04-01 08:00:00", 0, 0, UNPROCESSED, []⟩

def c2Row : Row :=
  ⟨1, 2000000, 1, "frank", "2024-05-01 08:00:00", 0, 0, UNPROCESSED, []⟩

def c2Db : DB := ⟨[c2Row], [], 2⟩

def c2Rec : AttendanceRecord :=
  ⟨none, 2, "grace", "2024-05-02 09:00:00", 0, 0, UNPROCESSED, []⟩

/-! ## Lemmas about the marking operation -/

theorem markRow_timestamp (fs : List String) (s : String) (r : Row) :
    (markRow fs s r).timestamp = r.timestamp := by
  unfold markRow; split <;> rfl

theorem markRow_idem (fs : List String) (s : String) (r : Row) :
    markRow fs s (markRow fs s r) = markRow fs s r := by
  by_cases h : r.timestamp ∈ fs
  · have h1 : markRow fs s r = { r with processed := s, errors := [] } := by
      simp [markRow, h]
    rw [h1]
    simp [markRow, h]
  · have h1 : markRow fs s r = r := by simp [markRow, h]
    rw [h1, h1]

theorem markRecordsByTimestamps_eq_map (rows : List Row)
    (tss : List String) (status : String) :
    markRecordsByTimestamps rows tss status =
      rows.map (markRow (tss.map fmtTs) status) := by
  cases tss with
  | nil =>
    have hfun : ∀ r : Row, markRow (List.map fmtTs []) status r = r := by
      intro r; rfl
    rw [show markRow (List.map fmtTs []) status = fun r => r from funext hfun]
    rw [List.map_id']
    rfl
  | cons t ts =>
    rfl

/-- C7: `mark_records_by_timestamps` is idempotent — applying it twice with
the same timestamp list and status leaves the store (records and logs) in
the same state as applying it once. -/
theorem mark_records_by_timestamps_idempotent (db : DB)
    (timestamps : List String) (status : String) :
    markRecordsByTimestampsDb (markRecordsByTimestampsDb db timestamps status)
        timestamps status =
      markRecordsByTimestampsDb db timestamps status := by
  unfold markRecordsByTimestampsDb
  simp only [markRecordsByTimestamps_eq_map, List.map_map]
  have hfun : (markRow (timestamps.map fmtTs) status) ∘
      (markRow (timestamps.map fmtTs) status) =
      markRow (timestamps.map fmtTs) status :=
    funext fun r => markRow_idem _ _ r
  rw [hfun]

/-! ## Lemmas about the error reconciler -/

theorem applyLine_id (l : FailedLine) (r : Row) : (applyLine l r).id = r.id := by
  unfold applyLine; split <;> rfl

theorem applyLines_id (lines : List FailedLine) (r : Row) :
    (applyLines lines r).id = r.id := by
  induction lines generalizing r with
  | nil => rfl
  | cons l ls ih =>
    show (applyLines ls (applyLine l r)).id = r.id
    rw [ih, applyLine_id]

theorem applyLines_append (ls : List FailedLine) (l : FailedLine) (r : Row) :
    applyLines (ls ++ [l]) r = applyLine l (applyLines ls r) := by
  unfold applyLines
  rw [List.foldl_append]
  rfl

/-- One `for` step of `_process_error_records` acts row-wise. -/
theorem processErrorRecords_step (rows : List Row) (l : FailedLine) :
    (if lineQualifies l then
        markRecordError rows (l.recordId.getD 0) l.errors
      else rows) = rows.map (applyLine l) := by
  by_cases hq : lineQualifies l
  · rw [if_pos hq]
    cases hid : l.recordId with
    | none => simp [lineQualifies, hid] at hq
    | some n =>
      unfold markRecordError
      refine List.map_congr_left fun r _ => ?_
      by_cases hr : r.id = n
      · rw [if_pos (show r.id = (some n).getD 0 from hr)]
        rw [applyLine, if_pos ⟨hq, by rw [hid, hr]⟩]
      · rw [if_neg (show ¬r.id = (some n).getD 0 from hr)]
        rw [applyLine, if_neg (fun hcon => hr (by
          have h2 := hcon.2
          rw [hid] at h2
          exact (Option.some.inj h2).symm))]
  · rw [if_neg hq]
    have : ∀ r : Row, applyLine l r = r := by
      intro r
      rw [applyLine, if_neg (fun hc => hq hc.1)]
    rw [show applyLine l = fun r => r from funext this, List.map_id']

/-- `_process_error_records` acts independently on every row. -/
theorem processErrorRecords_eq_map (lines : List FailedLine) (rows : List Row) :
    processErrorRecords rows lines = rows.map (applyLines lines) := by
  induction lines generalizing rows with
  | nil =>
    show rows = rows.map (applyLines [])
    rw [show applyLines [] = fun r => r from rfl, List.map_id']
  | cons l ls ih =>
    show processErrorRecords
        (if lineQualifies l then
          markRecordError rows (l.recordId.getD 0) l.errors
         else rows) ls = _
    rw [processErrorRecords_step, ih, List.map_map]
    rfl

/-- Row-level outcome of the reconciler: the last qualifying entry naming
the row's id wins; a row named by no qualifying entry is untouched. -/
theorem applyLines_lastQual (lines : List FailedLine) (r : Row) :
    applyLines lines r =
      match lastQual lines r.id with
      | some l => { r with processed := ERROR, errors := l.errors }
      | none => r := by
  induction lines using List.reverseRecOn with
  | nil => rfl
  | append_singleton ls l ih =>
    rw [applyLines_append]
    by_cases hc : (lineQualifies l && (l.recordId == some r.id)) = true
    · have hlast : lastQual (ls ++ [l]) r.id = some l := by
        simp [lastQual, List.filter_append, List.filter_singleton, hc,
          List.getLast?_concat]
      rw [hlast]
      have hq : lineQualifies l := (Bool.and_eq_true _ _ ▸ hc).1
      have hid : l.recordId = some r.id := by
        have := (Bool.and_eq_true _ _ ▸ hc).2
        exact eq_of_beq this
      have hcond : lineQualifies l ∧ l.recordId = some (applyLines ls r).id := by
        rw [applyLines_id]; exact ⟨hq, hid⟩
      rw [applyLine, if_pos hcond, ih]
      cases hl : lastQual ls r.id <;> rfl
    · have hcf : (lineQualifies l && (l.recordId == some r.id)) = false :=
        Bool.eq_false_iff.mpr hc
      have hlast : lastQual (ls ++ [l]) r.id = lastQual ls r.id := by
        simp [lastQual, List.filter_append, List.filter_singleton, hcf]
      rw [hlast]
      have hcond : ¬(lineQualifies l ∧ l.recordId = some (applyLines ls r).id) := by
        rw [applyLines_id]
        intro ⟨h1, h2⟩
        exact hc (by rw [Bool.and_eq_true]; exact ⟨h1, beq_iff_eq.mpr h2⟩)
      rw [applyLine, if_neg hcond, ih]

/-- Non-qualifying failed-lines entries have no effect at all. -/
theorem applyLines_filter (lines : List FailedLine) (r : Row) :
    applyLines (lines.filter (fun l => lineQualifies l)) r =
      applyLines lines r := by
  induction lines generalizing r with
  | nil => rfl
  | cons l ls ih =>
    by_cases hq : lineQualifies l
    · rw [List.filter_cons_of_pos hq]
      show applyLines (ls.filter _) (applyLine l r) = applyLines ls (applyLine l r)
      exact ih _
    · rw [List.filter_cons_of_neg hq]
      have : applyLine l r = r := by
        rw [applyLine, if_neg (fun hc => hq hc.1)]
      show applyLines (ls.filter _) r = applyLines ls (applyLine l r)
      rw [this, ih]

/-- C6 (amended): the Error Reconciler acts row-wise; a record named by at
least one qualifying failed-lines entry (record id present and nonzero,
error list non-empty) ends with `processed = ERROR` and the error list of
the *last* such entry naming it; entries missing either field never change
the store; and a record named by no qualifying entry is left untouched (in
particular an `UNPROCESSED` record stays `UNPROCESSED`). -/
theorem error_reconciler_last_entry_wins (rows : List Row)
    (lines : List FailedLine) :
    processErrorRecords rows lines = rows.map (applyLines lines) ∧
    processErrorRecords rows (lines.filter (fun l => lineQualifies l)) =
      processErrorRecords rows lines ∧
    (∀ r : Row, ∀ errs : List RecordError,
      lastErrorsFor lines r.id = some errs →
      applyLines lines r = { r with processed := ERROR, errors := errs }) ∧
    (∀ r : Row, lastErrorsFor lines r.id = none → applyLines lines r = r) := by
  refine ⟨processErrorRecords_eq_map lines rows, ?_, ?_, ?_⟩
  · rw [processErrorRecords_eq_map, processErrorRecords_eq_map]
    exact List.map_congr_left fun r _ => applyLines_filter lines r
  · intro r errs h
    rw [applyLines_lastQual]
    unfold lastErrorsFor at h
    cases hl : lastQual lines r.id with
    | none => rw [hl] at h; simp at h
    | some l =>
      rw [hl] at h
      have hx : l.errors = errs := by simpa using h
      show ({ r with processed := ERROR, errors := l.errors } : Row) = _
      rw [hx]
  · intro r h
    rw [applyLines_lastQual]
    unfold lastErrorsFor at h
    cases hl : lastQual lines r.id with
    | none => rfl
    | some l => rw [hl] at h; simp at h

/-- C6 counterexample: with two qualifying failed-lines entries naming the
same record id with different error lists, the record does *not* end with
the first entry's list (the second overwrites it), so the claim "for every
qualifying entry the record with that id gets errors equal to that list"
is false as stated. -/
theorem error_reconciler_claim_counterexample :
    ¬ (∀ l ∈ ce6Lines, lineQualifies l = true →
        ∀ r ∈ processErrorRecords [ce6Row] ce6Lines,
          l.recordId = some r.id → r.errors = l.errors) := by
  decide

theorem error_reconciler_last_entry_wins_witness :
    applyLines ce6WLines ce6WRow =
      { ce6WRow with processed := ERROR, errors := [ce6E1] } :=
  (error_reconciler_last_entry_wins [ce6WRow] ce6WLines).2.2.1 ce6WRow [ce6E1]
    (by decide)

/-! ## Lemmas about the poll loop -/

/-- A non-terminal normal reply makes one loop iteration sleep 2 seconds
and poll again. -/
theorem pollLoop_step (api : Api) (jid : Option String) (records : List Row)
    (info : ExportInfo) (db : DB) (n t f : Nat) (p : PollResp)
    (hp : api.poll n = PollResult.ok p)
    (h1 : p.status ≠ some "COMPLETED")
    (h2 : p.status ≠ some "FAILED")
    (h3 : p.status ≠ some "STOPPED") :
    pollLoop api jid records info db n t (f + 1) =
      pollLoop api jid records info db (n + 1) (t + 2) f := by
  simp only [pollLoop, hp]
  by_cases hs : p.status = some "STARTED" ∨ p.status = some "STARTING"
  · rw [if_neg h1, if_pos hs]
  · rw [if_neg h1, if_neg hs, if_neg (fun hc => hc.elim h2 h3)]

/-- The `if attendance_records:` guard is redundant: marking with an empty
timestamp list is already the identity. -/
theorem markRecordsByTimestamps_if_empty (rows : List Row)
    (l : List String) (status : String) :
    (if l.isEmpty then rows else markRecordsByTimestamps rows l status) =
      markRecordsByTimestamps rows l status := by
  cases l <;> rfl

/-- An exception raised by the status poll is caught: the iteration stops
the loop with 0 and an untouched store. -/
theorem pollLoop_exn_step (api : Api) (jid : Option String)
    (records : List Row) (info : ExportInfo) (db : DB) (n t f : Nat)
    (msg : String) (hp : api.poll n = PollResult.exn msg) :
    pollLoop api jid records info db n t (f + 1) = (db, 0, t) := by
  simp [pollLoop, hp]

/-- The `COMPLETED` branch of `_process_upload_job`, in closed form. -/
theorem pollLoop_completed (api : Api) (jid : Option String)
    (records : List Row) (info : ExportInfo) (db : DB) (n t f : Nat)
    (p : PollResp) (hp : api.poll n = PollResult.ok p)
    (h1 : p.status = some "COMPLETED") :
    pollLoop api jid records info db n t (f + 1) =
      (⟨(if (api.pointings (jobIdOf p jid)).length ≠ records.length then
            processErrorRecords
              (markRecordsByTimestamps db.rows (api.pointings (jobIdOf p jid))
                PROCESSED)
              api.importLines
          else
            markRecordsByTimestamps db.rows (api.pointings (jobIdOf p jid))
              PROCESSED),
        db.logs ++ [⟨info.batch_id, info.file_path, info.records_count,
          "SUCCESS", ResponseData.jobResult (jobIdOf p jid)
            (api.pointings (jobIdOf p jid)).length⟩],
        db.nextId⟩, (api.pointings (jobIdOf p jid)).length, t) := by
  simp only [pollLoop, hp, if_pos h1, markRecordsByTimestamps_if_empty]

/-- The `FAILED`/`STOPPED` branch of `_process_upload_job`, in closed
form. -/
theorem pollLoop_failed (api : Api) (jid : Option String)
    (records : List Row) (info : ExportInfo) (db : DB) (n t f : Nat)
    (p : PollResp) (hp : api.poll n = PollResult.ok p)
    (h1 : p.status ≠ some "COMPLETED")
    (hf : p.status = some "FAILED" ∨ p.status = some "STOPPED") :
    pollLoop api jid records info db n t (f + 1) =
      (⟨processErrorRecords db.rows api.importLines,
        db.logs ++ [⟨info.batch_id, info.file_path, info.records_count,
          "FAILED", ResponseData.pollResp p⟩],
        db.nextId⟩, 0, t) := by
  have hs : ¬(p.status = some "STARTED" ∨ p.status = some "STARTING") := by
    rcases hf with hf | hf <;> rw [hf] <;> decide
  simp only [pollLoop, hp]
  rw [if_neg h1, if_neg hs, if_pos hf]

/-- The elapsed time at loop exit never exceeds the remaining budget: at
most 2 seconds per remaining iteration. -/
theorem pollLoop_elapsed_le (api : Api) (jid : Option String)
    (records : List Row) (info : ExportInfo) (db : DB) :
    ∀ fuel n t,
      (pollLoop api jid records info db n t fuel).2.2 ≤ t + 2 * fuel := by
  intro fuel
  induction fuel with
  | zero => intro n t; simp [pollLoop]
  | succ f ih =>
    intro n t
    cases hp : api.poll n with
    | exn m =>
      rw [pollLoop_exn_step api jid records info db n t f m hp]
      show t ≤ t + 2 * (f + 1)
      omega
    | ok p =>
      by_cases h1 : p.status = some "COMPLETED"
      · rw [pollLoop_completed api jid records info db n t f p hp h1]
        show t ≤ t + 2 * (f + 1)
        omega
      · by_cases hf : p.status = some "FAILED" ∨ p.status = some "STOPPED"
        · rw [pollLoop_failed api jid records info db n t f p hp h1 hf]
          show t ≤ t + 2 * (f + 1)
          omega
        · rw [pollLoop_step api jid records info db n t f p hp h1
            (fun h => hf (Or.inl h)) (fun h => hf (Or.inr h))]
          have := ih (n + 1) (t + 2)
          omega

/-- When no poll ever returns a terminal status, the loop runs its full
budget and exits with 0 and an untouched store. -/
theorem pollLoop_nonTerminal (api : Api) (jid : Option String)
    (records : List Row) (info : ExportInfo) (db : DB)
    (h : ∀ i, nonTerminalResp (api.poll i)) :
    ∀ fuel n t,
      pollLoop api jid records info db n t fuel = (db, 0, t + 2 * fuel) := by
  intro fuel
  induction fuel with
  | zero => intro n t; simp [pollLoop]
  | succ f ih =>
    intro n t
    obtain ⟨p, hp, h1, h2, h3⟩ := h n
    rw [pollLoop_step api jid records info db n t f p hp h1 h2 h3,
      ih (n + 1) (t + 2)]
    have : t + 2 + 2 * f = t + 2 * (f + 1) := by ring
    rw [this]

/-- A poll that raises after `k` non-terminal replies makes the loop stop
with 0 and an untouched store (the exception is caught). -/
theorem pollLoop_exn (api : Api) (jid : Option String) (records : List Row)
    (info : ExportInfo) (db : DB) (msg : String) :
    ∀ k fuel n t, k < fuel →
      (∀ i, i < k → nonTerminalResp (api.poll (n + i))) →
      api.poll (n + k) = PollResult.exn msg →
      pollLoop api jid records info db n t fuel = (db, 0, t + 2 * k) := by
  intro k
  induction k with
  | zero =>
    intro fuel n t hk hpre hexn
    cases fuel with
    | zero => omega
    | succ f =>
      rw [Nat.add_zero] at hexn
      simp [pollLoop, hexn]
  | succ k ih =>
    intro fuel n t hk hpre hexn
    cases fuel with
    | zero => omega
    | succ f =>
      obtain ⟨p, hp, h1, h2, h3⟩ := hpre 0 (Nat.succ_pos k)
      rw [Nat.add_zero] at hp
      have hpre1 : ∀ i, i < k → nonTerminalResp (api.poll (n + 1 + i)) := by
        intro i hi
        have := hpre (i + 1) (Nat.succ_lt_succ hi)
        rwa [show n + (i + 1) = n + 1 + i by omega] at this
      have hexn1 : api.poll (n + 1 + k) = PollResult.exn msg := by
        rwa [show n + (k + 1) = n + 1 + k by omega] at hexn
      rw [pollLoop_step api jid records info db n t f p hp h1 h2 h3,
        ih f (n + 1) (t + 2) (by omega) hpre1 hexn1]
      have : t + 2 + 2 * k = t + 2 * (k + 1) := by ring
      rw [this]

/-- C3: for every stream of remote status responses the poll loop's total
wait stays within the 30-second bound (2-second steps, 15 iterations), and
when the status never reaches `COMPLETED`, `FAILED` or `STOPPED` the loop
runs to the timeout and returns 0 with the store untouched. -/
theorem upload_poll_loop_terminates (api : Api) (jid : Option String)
    (records : List Row) (info : ExportInfo) (db : DB) :
    (pollLoop api jid records info db 0 0 15).2.2 ≤ 30 ∧
    ((∀ i, nonTerminalResp (api.poll i)) →
      pollLoop api jid records info db 0 0 15 = (db, 0, 30)) := by
  constructor
  · have := pollLoop_elapsed_le api jid records info db 15 0 0
    simpa using this
  · intro h
    have := pollLoop_nonTerminal api jid records info db h 15 0 0
    simpa using this

theorem upload_poll_loop_terminates_witness :
    pollLoop exApiStarted none [] exInfo0 exDb0 0 0 15 = (exDb0, 0, 30) :=
  (upload_poll_loop_terminates exApiStarted none [] exInfo0 exDb0).2
    (fun _ => ⟨⟨some "STARTED", none⟩, rfl, by decide, by decide, by decide⟩)

/-- C1: when the first poll of a submitted batch reports `COMPLETED`, the
operation returns the accepted-timestamp count as its processed count,
appends exactly one SUCCESS upload log recording the job id and that
count, the marking step makes `PROCESSED` exactly the rows whose timestamp
is in the accepted list (after the `T`→space normalization the repository
applies), and the Error Reconciler is invoked when the accepted count is
smaller than the submitted record count and not when they are equal. -/
theorem upload_completed_effects (api : Api) (jid : Option String)
    (records : List Row) (info : ExportInfo) (db : DB) (p : PollResp)
    (hp : api.poll 0 = PollResult.ok p)
    (hs : p.status = some "COMPLETED") :
    (processUploadJob api jid records info db).2 =
      (acceptedOf api p jid).length ∧
    (processUploadJob api jid records info db).1.logs =
      db.logs ++ [⟨info.batch_id, info.file_path, info.records_count,
        "SUCCESS", ResponseData.jobResult (jobIdOf p jid)
          (acceptedOf api p jid).length⟩] ∧
    ((acceptedOf api p jid).length = records.length →
      (processUploadJob api jid records info db).1.rows =
        markRecordsByTimestamps db.rows (acceptedOf api p jid) PROCESSED) ∧
    ((acceptedOf api p jid).length < records.length →
      (processUploadJob api jid records info db).1.rows =
        processErrorRecords
          (markRecordsByTimestamps db.rows (acceptedOf api p jid) PROCESSED)
          api.importLines) ∧
    (∀ r : Row,
      (markRow ((acceptedOf api p jid).map fmtTs) PROCESSED r).processed =
          PROCESSED ↔
        (r.timestamp ∈ (acceptedOf api p jid).map fmtTs ∨
          r.processed = PROCESSED)) := by
  have he := pollLoop_completed api jid records info db 0 0 14 p hp hs
  have hpj : processUploadJob api jid records info db =
      ((pollLoop api jid records info db 0 0 15).1,
        (pollLoop api jid records info db 0 0 15).2.1) := rfl
  rw [show (15 : Nat) = 14 + 1 from rfl, he] at hpj
  refine ⟨by rw [hpj]; rfl, by rw [hpj]; rfl, ?_, ?_, ?_⟩
  · intro heq
    rw [hpj]
    show (if (api.pointings (jobIdOf p jid)).length ≠ records.length then
        processErrorRecords (markRecordsByTimestamps db.rows
          (api.pointings (jobIdOf p jid)) PROCESSED) api.importLines
      else markRecordsByTimestamps db.rows (api.pointings (jobIdOf p jid))
        PROCESSED) =
      markRecordsByTimestamps db.rows (acceptedOf api p jid) PROCESSED
    rw [if_neg (show ¬((api.pointings (jobIdOf p jid)).length ≠
        records.length) from fun hc => hc heq)]
    rfl
  · intro hlt
    rw [hpj]
    show (if (api.pointings (jobIdOf p jid)).length ≠ records.length then
        processErrorRecords (markRecordsByTimestamps db.rows
          (api.pointings (jobIdOf p jid)) PROCESSED) api.importLines
      else markRecordsByTimestamps db.rows (api.pointings (jobIdOf p jid))
        PROCESSED) =
      processErrorRecords
        (markRecordsByTimestamps db.rows (acceptedOf api p jid) PROCESSED)
        api.importLines
    rw [if_pos (show (api.pointings (jobIdOf p jid)).length ≠
        records.length from Nat.ne_of_lt hlt)]
    rfl
  · intro r
    by_cases hm : r.timestamp ∈ (acceptedOf api p jid).map fmtTs
    · simp [markRow, hm]
    · simp [markRow, hm]

theorem upload_completed_effects_witness :
    (processUploadJob exC1Api (some "j0") [exC1Row] exC1Info exC1Db).2 =
      (acceptedOf exC1Api exC1P (some "j0")).length ∧
    (processUploadJob exC1Api (some "j0") [exC1Row] exC1Info exC1Db).1.logs =
      exC1Db.logs ++ [⟨exC1Info.batch_id, exC1Info.file_path,
        exC1Info.records_count, "SUCCESS",
        ResponseData.jobResult (jobIdOf exC1P (some "j0"))
          (acceptedOf exC1Api exC1P (some "j0")).length⟩] ∧
    ((acceptedOf exC1Api exC1P (some "j0")).length = [exC1Row].length →
      (processUploadJob exC1Api (some "j0") [exC1Row] exC1Info
        exC1Db).1.rows =
        markRecordsByTimestamps exC1Db.rows
          (acceptedOf exC1Api exC1P (some "j0")) PROCESSED) ∧
    ((acceptedOf exC1Api exC1P (some "j0")).length < [exC1Row].length →
      (processUploadJob exC1Api (some "j0") [exC1Row] exC1Info
        exC1Db).1.rows =
        processErrorRecords
          (markRecordsByTimestamps exC1Db.rows
            (acceptedOf exC1Api exC1P (some "j0")) PROCESSED)
          exC1Api.importLines) ∧
    (∀ r : Row,
      (markRow ((acceptedOf exC1Api exC1P (some "j0")).map fmtTs) PROCESSED
          r).processed = PROCESSED ↔
        (r.timestamp ∈ (acceptedOf exC1Api exC1P (some "j0")).map fmtTs ∨
          r.processed = PROCESSED)) :=
  upload_completed_effects exC1Api (some "j0") [exC1Row] exC1Info exC1Db
    exC1P rfl rfl

/-- C4 counterexample: a poll-step exception after a successful submit is
caught, but the overall result reports `success = true` (with 0
processed), not `success = false` as the claim states. -/
theorem upload_poll_exception_claim_counterexample :
    ¬ ((uploadAttendanceToApi ce4Api exEnv ce4Db).2.success = false) := by
  decide

/-- C4 (amended): an unexpected exception raised at a status-poll step
after a successful submit is caught rather than propagated; the polling
phase yields 0 processed, the store is untouched, and the overall upload
result reports `success = true` with `processed = 0`. -/
theorem upload_poll_exception_caught (api : Api) (env : ExportEnv) (db : DB)
    (k : Nat) (msg : String)
    (hrec : getRecords db (some UNPROCESSED) ≠ [])
    (hsub : api.uploadResp.success = true)
    (hk : k < 15)
    (hpre : ∀ i, i < k → nonTerminalResp (api.poll i))
    (hexn : api.poll k = PollResult.exn msg) :
    uploadAttendanceToApi api env db =
      (db, ⟨true, successMessage 0, 0, api.uploadResp.jobExecutionId⟩) := by
  unfold uploadAttendanceToApi
  cases hgr : getRecords db (some UNPROCESSED) with
  | nil => exact absurd hgr hrec
  | cons r rs =>
    have hloop := pollLoop_exn api api.uploadResp.jobExecutionId (r :: rs)
      ⟨env.batch_id, env.file_path, (r :: rs).length⟩ db msg k 15 0 0 hk
      (by simpa using hpre) (by simpa using hexn)
    have hpj : processUploadJob api api.uploadResp.jobExecutionId (r :: rs)
        ⟨env.batch_id, env.file_path, (r :: rs).length⟩ db = (db, 0) := by
      unfold processUploadJob
      rw [hloop]
    simp only [hsub, if_pos, hpj]

theorem upload_poll_exception_caught_witness :
    uploadAttendanceToApi ce4Api exEnv ce4Db =
      (ce4Db, ⟨true, successMessage 0, 0, some "job-2"⟩) :=
  upload_poll_exception_caught ce4Api exEnv ce4Db 0 "boom" (by decide) rfl
    (by decide) (fun i hi => absurd hi (by omega)) rfl

/-- C5: when the API submit step reports failure, one FAILED upload log is
written, the operation returns a failure result with zero processed, and
the records table is untouched — every previously `UNPROCESSED` row is
still present and `UNPROCESSED`. -/
theorem upload_submit_failure (api : Api) (env : ExportEnv) (db : DB)
    (hrec : getRecords db (some UNPROCESSED) ≠ [])
    (hfail : api.uploadResp.success = false) :
    (uploadAttendanceToApi api env db).2.success = false ∧
    (uploadAttendanceToApi api env db).2.processed = 0 ∧
    (uploadAttendanceToApi api env db).1.rows = db.rows ∧
    (uploadAttendanceToApi api env db).1.logs = db.logs ++
      [⟨env.batch_id, env.file_path,
        (getRecords db (some UNPROCESSED)).length, "FAILED",
        ResponseData.uploadResp api.uploadResp⟩] ∧
    (∀ r ∈ db.rows, r.processed = UNPROCESSED →
      r ∈ (uploadAttendanceToApi api env db).1.rows ∧
        r.processed = UNPROCESSED) := by
  have hu : uploadAttendanceToApi api env db =
      (logApiUpload db ⟨env.batch_id, env.file_path,
        (getRecords db (some UNPROCESSED)).length, "FAILED",
        ResponseData.uploadResp api.uploadResp⟩,
       ⟨false, api.uploadResp.message, 0, none⟩) := by
    unfold uploadAttendanceToApi
    cases hgr : getRecords db (some UNPROCESSED) with
    | nil => exact absurd hgr hrec
    | cons r rs => simp [hfail]
  refine ⟨by rw [hu], by rw [hu], by rw [hu]; rfl, by rw [hu]; rfl, ?_⟩
  intro r hr hpr
  refine ⟨?_, hpr⟩
  rw [hu]
  show r ∈ db.rows
  exact hr

theorem upload_submit_failure_witness :
    (uploadAttendanceToApi ce5Api exEnv ce5Db).2.success = false ∧
    (uploadAttendanceToApi ce5Api exEnv ce5Db).2.processed = 0 ∧
    (uploadAttendanceToApi ce5Api exEnv ce5Db).1.rows = ce5Db.rows ∧
    (uploadAttendanceToApi ce5Api exEnv ce5Db).1.logs = ce5Db.logs ++
      [⟨exEnv.batch_id, exEnv.file_path,
        (getRecords ce5Db (some UNPROCESSED)).length, "FAILED",
        ResponseData.uploadResp ce5Api.uploadResp⟩] ∧
    (∀ r ∈ ce5Db.rows, r.processed = UNPROCESSED →
      r ∈ (uploadAttendanceToApi ce5Api exEnv ce5Db).1.rows ∧
        r.processed = UNPROCESSED) :=
  upload_submit_failure ce5Api exEnv ce5Db (by decide) rfl

/-! ## Invariant preservation (C8) -/

theorem inv_append (rows : List Row) (row : Row)
    (h : ProcessedErrorsInv rows)
    (hrow : row.processed = PROCESSED → row.errors = []) :
    ProcessedErrorsInv (rows ++ [row]) := by
  intro x hx hpx
  rcases List.mem_append.mp hx with hx | hx
  · exact h x hx hpx
  · rw [List.mem_singleton.mp hx]
    exact hrow (List.mem_singleton.mp hx ▸ hpx)

theorem saveRecordsGo_preserves_inv :
    ∀ (recs : List AttendanceRecord) (rows : List Row) (nextId nextUid : Nat),
      ProcessedErrorsInv rows →
      (∀ x ∈ recs, x.processed = UNPROCESSED) →
      ProcessedErrorsInv (saveRecordsGo rows nextId nextUid recs).1 := by
  intro recs
  induction recs with
  | nil => intro rows _ _ h _; exact h
  | cons r rs ih =>
    intro rows nextId nextUid h hall
    have hr := hall r (List.mem_cons_self r rs)
    have hall1 : ∀ x ∈ rs, x.processed = UNPROCESSED :=
      fun x hx => hall x (List.mem_cons_of_mem r hx)
    have hins : ∀ u : Nat, ProcessedErrorsInv
        (if insertConflict rows u r.timestamp = true then rows
         else rows ++ [⟨nextId, u, r.user_id, r.username, r.timestamp,
           r.status, r.punch_type, r.processed, r.errors⟩]) := by
      intro u
      split
      · exact h
      · apply inv_append _ _ h
        intro hpx
        rw [show (⟨nextId, u, r.user_id, r.username, r.timestamp, r.status,
          r.punch_type, r.processed, r.errors⟩ : Row).processed =
          r.processed from rfl, hr] at hpx
        exact absurd hpx (by decide)
    simp only [saveRecordsGo]
    exact ih _ _ _ (hins _) hall1

/-- C8: every record-mutating operation the core performs — the bulk
insert at collection (records stamped `UNPROCESSED` by the device
service), marking records by timestamp, marking a single record
processed, and marking a record `ERROR` — preserves the invariant that a
`PROCESSED` row carries an empty error list. -/
theorem core_mutations_preserve_invariant (db : DB)
    (h : ProcessedErrorsInv db.rows) :
    (∀ recs : List AttendanceRecord,
      (∀ x ∈ recs, x.processed = UNPROCESSED) →
      ProcessedErrorsInv ((collectAttendance db recs).1.rows)) ∧
    (∀ (tss : List String) (status : String),
      ProcessedErrorsInv (markRecordsByTimestamps db.rows tss status)) ∧
    (∀ rid : Nat, ProcessedErrorsInv (markRecordProcessed db.rows rid).1) ∧
    (∀ (rid : Nat) (errs : List RecordError),
      ProcessedErrorsInv (markRecordError db.rows rid errs)) := by
  refine ⟨?_, ?_, ?_, ?_⟩
  · intro recs hall
    cases recs with
    | nil => exact h
    | cons r rs =>
      exact saveRecordsGo_preserves_inv (r :: rs) db.rows db.nextId
        (nextUidInit db.rows) h hall
  · intro tss status x hx hpx
    rw [markRecordsByTimestamps_eq_map] at hx
    obtain ⟨r, hrr, rfl⟩ := List.mem_map.mp hx
    by_cases hm : r.timestamp ∈ tss.map fmtTs
    · simp [markRow, hm]
    · simp [markRow, hm] at hpx ⊢
      exact h r hrr hpx
  · intro rid
    unfold markRecordProcessed
    cases hf : db.rows.find? (fun r => r.id == rid) with
    | none => exact h
    | some r =>
      intro x hx hpx
      unfold updateRecord at hx
      obtain ⟨y, hy, rfl⟩ := List.mem_map.mp hx
      by_cases hid : y.id = r.id
      · simp [hid] at hpx ⊢
      · simp [hid] at hpx ⊢
        exact h y hy hpx
  · intro rid errs x hx hpx
    unfold markRecordError at hx
    obtain ⟨y, hy, rfl⟩ := List.mem_map.mp hx
    by_cases hid : y.id = rid
    · simp [hid] at hpx
      exact absurd hpx (by decide)
    · simp [hid] at hpx ⊢
      exact h y hy hpx

theorem core_mutations_preserve_invariant_witness :
    (∀ recs : List AttendanceRecord,
      (∀ x ∈ recs, x.processed = UNPROCESSED) →
      ProcessedErrorsInv ((collectAttendance exDb0 recs).1.rows)) ∧
    (∀ (tss : List String) (status : String),
      ProcessedErrorsInv (markRecordsByTimestamps exDb0.rows tss status)) ∧
    (∀ rid : Nat, ProcessedErrorsInv (markRecordProcessed exDb0.rows rid).1) ∧
    (∀ (rid : Nat) (errs : List RecordError),
      ProcessedErrorsInv (markRecordError exDb0.rows rid errs)) :=
  core_mutations_preserve_invariant exDb0
    (fun r hr _ => absurd hr (List.not_mem_nil r))

/-! ## Scheduler registration (C9) -/

theorem jobLookup_upsert (jobs : List (String × ScheduledJob))
    (name : String) (j : ScheduledJob) :
    jobLookup (upsertJob jobs name j) name = some j := by
  induction jobs with
  | nil => simp [upsertJob, jobLookup]
  | cons kv rest ih =>
    obtain ⟨k, v⟩ := kv
    by_cases hk : k = name
    · simp [upsertJob, hk, jobLookup]
    · simpa [upsertJob, hk, jobLookup] using ih

/-- C9: with the interval omitted and a Config row present, `register_job`
resolves the three known job names to the corresponding Config interval
field with unit minutes, and leaves the registered-jobs map unchanged for
any other name. -/
theorem register_job_interval_from_config (cfg : Config)
    (jobs : List (String × ScheduledJob)) (task : Nat)
    (interval_unit : String) (name : String) :
    (name = "attendance_collection" →
      jobLookup (registerJob (some cfg) jobs name task none interval_unit)
        name = some ⟨name, cfg.collection_interval, "minutes", task, true⟩) ∧
    (name = "attendance_upload" →
      jobLookup (registerJob (some cfg) jobs name task none interval_unit)
        name = some ⟨name, cfg.upload_interval, "minutes", task, true⟩) ∧
    (name = "user_import" →
      jobLookup (registerJob (some cfg) jobs name task none interval_unit)
        name = some ⟨name, cfg.import_interval, "minutes", task, true⟩) ∧
    (name ≠ "attendance_collection" → name ≠ "attendance_upload" →
      name ≠ "user_import" →
      registerJob (some cfg) jobs name task none interval_unit = jobs) := by
  refine ⟨?_, ?_, ?_, ?_⟩
  · intro hn
    subst hn
    exact jobLookup_upsert jobs "attendance_collection"
      ⟨"attendance_collection", cfg.collection_interval, "minutes", task, true⟩
  · intro hn
    subst hn
    exact jobLookup_upsert jobs "attendance_upload"
      ⟨"attendance_upload", cfg.upload_interval, "minutes", task, true⟩
  · intro hn
    subst hn
    exact jobLookup_upsert jobs "user_import"
      ⟨"user_import", cfg.import_interval, "minutes", task, true⟩
  · intro h1 h2 h3
    simp only [registerJob]
    rw [if_neg h1, if_neg h2, if_neg h3]

theorem register_job_interval_from_config_witness :
    jobLookup (registerJob (some exCfg) [] "attendance_upload" 7 none
      "minutes") "attendance_upload" =
      some ⟨"attendance_upload", 1, "minutes", 7, true⟩ :=
  (register_job_interval_from_config exCfg [] 7 "minutes"
    "attendance_upload").2.1 rfl

/-! ## Collection count (C10) -/

/-- C10: `collect_attendance` returns the number of records fetched from
the device, not the number of rows actually inserted; a record silently
ignored as a duplicate timestamp by the insert-or-ignore bulk save still
contributes to the returned count (witnessed by the second conjunct, where
one fetched record is dropped yet counted). -/
theorem collect_attendance_returns_fetched_count :
    (∀ (db : DB) (recs : List AttendanceRecord),
      (collectAttendance db recs).2 = recs.length) ∧
    (∃ (db : DB) (recs : List AttendanceRecord), recs ≠ [] ∧
      (collectAttendance db recs).1.rows.length <
        db.rows.length + recs.length ∧
      (collectAttendance db recs).2 = recs.length) := by
  constructor
  · intro db recs
    cases recs with
    | nil => rfl
    | cons r rs => rfl
  · exact ⟨ce10Db, [ce10Rec], by decide, by decide, by decide⟩

/-! ## The uid allocation boundary (C2) -/

/-- C2 (code bug): with the stored maximum uid exactly 2,000,000 the
strict comparison `max_uid > 2000000` in `save_records` restarts the
batch counter at 2,000,000 instead of continuing from 2,000,001 (the
sibling `save_record` uses `>=`), assigning a uid that collides with the
UNIQUE `uid` column, so `INSERT OR IGNORE` silently drops the freshly
collected record: the store is unchanged. -/
theorem save_records_uid_boundary_bug :
    maxUid c2Db.rows = some 2000000 ∧
    nextUidInit c2Db.rows = 2000000 ∧
    (saveRecords c2Db [c2Rec]).2 = [2000000] ∧
    (saveRecords c2Db [c2Rec]).1.rows = c2Db.rows := by
  decide

end SirhTimeSync
